import Mathlib

/-!
# Verification of the Marseille rental-investment projection core

Shallow embedding of the deterministic projection engine and breakeven
search from the repository (the deterministic variant in
marseille_dashboard.py: run_simulation and find_breakeven_days).
Monetary quantities and rates are modelled as exact rationals; the
external IRR solver (numpy_financial.irr) is modelled as an explicit
fallible parameter, and its mathematical contract (a root of the
net-present-value function) is stated separately over the reals.
-/

namespace Marseille

/-- The flat parameter record read by run_simulation and
find_breakeven_days (the keys of the params dict). -/
@[ext]
structure Params where
  simulation_years : ℕ
  apartment_price : ℚ
  loan_amount : ℚ
  mortgage_term_years : ℕ
  buying_costs_pct : ℚ
  selling_costs_pct : ℚ
  annual_fixed_costs : ℚ
  tourist_rental_price_per_day : ℚ
  friends_rental_price_per_day : ℚ
  friends_rental_days_per_year : ℚ
  family_rental_price_per_day : ℚ
  family_rental_days_per_year : ℚ
  avg_property_value_growth : ℚ
  annual_costs_inflation : ℚ
  base_mortgage_interest_rate : ℚ
  target_annual_return : ℚ
deriving DecidableEq

/-- One row of the results table built in the simulation loop
(the columns of the DataFrame in run_simulation). -/
structure YearRecord where
  year : ℕ
  property_value : ℚ
  loan_balance : ℚ
  equity : ℚ
  rental_revenue : ℚ
  interest_rate : ℚ
  property_growth : ℚ
  interest_paid : ℚ
  principal_paid : ℚ
  fixed_costs : ℚ
  net_cash_flow : ℚ
deriving DecidableEq

/-- The mutable state threaded through the simulation loop of
run_simulation: the remaining loan, the current property value, the
cash-flow list and the accumulated yearly rows. -/
structure SimState where
  remaining_loan : ℚ
  current_property_value : ℚ
  cash_flows : List ℚ
  simulation_data : List YearRecord
deriving DecidableEq

/-- total_initial_investment in run_simulation:
down payment plus buying costs. -/
def total_initial_investment (p : Params) : ℚ :=
  (p.apartment_price - p.loan_amount) + p.apartment_price * p.buying_costs_pct

/-- annual_principal_payment in run_simulation:
straight-line amortization amount. -/
def annual_principal_payment (p : Params) : ℚ :=
  p.loan_amount / (p.mortgage_term_years : ℚ)

/-- The state before the first loop iteration of run_simulation. -/
def initState (p : Params) : SimState :=
  { remaining_loan := p.loan_amount
    current_property_value := p.apartment_price
    cash_flows := [-total_initial_investment p]
    simulation_data := [] }

/-- Python cash_flows[-1] += x : add x to the last element of the list. -/
def addToLast (x : ℚ) : List ℚ → List ℚ
  | [] => []
  | [a] => [a + x]
  | a :: b :: t => a :: addToLast x (b :: t)

/-- One iteration of the simulation loop of run_simulation (the body of
the for-loop over years), for the given 1-based year index. -/
def simStep (p : Params) (tourist_rental_days : ℚ) (st : SimState) (year : ℕ) :
    SimState :=
  let current_interest_rate := p.base_mortgage_interest_rate
  let current_property_growth := p.avg_property_value_growth
  let current_property_value :=
    st.current_property_value * (1 + current_property_growth)
  let current_fixed_costs :=
    p.annual_fixed_costs * (1 + p.annual_costs_inflation) ^ year
  let tourist_revenue := tourist_rental_days * p.tourist_rental_price_per_day
  let friends_revenue :=
    p.friends_rental_days_per_year * p.friends_rental_price_per_day
  let family_revenue :=
    p.family_rental_days_per_year * p.family_rental_price_per_day
  let total_rental_revenue := tourist_revenue + friends_revenue + family_revenue
  let interest_paid := st.remaining_loan * current_interest_rate
  let principal_paid :=
    if annual_principal_payment p < st.remaining_loan then
      annual_principal_payment p
    else st.remaining_loan
  let net_cash_flow :=
    total_rental_revenue - interest_paid - principal_paid - current_fixed_costs
  let remaining_loan := st.remaining_loan - principal_paid
  let current_equity := current_property_value - remaining_loan
  { remaining_loan := remaining_loan
    current_property_value := current_property_value
    cash_flows := st.cash_flows ++ [net_cash_flow]
    simulation_data := st.simulation_data ++
      [{ year := year
         property_value := current_property_value
         loan_balance := remaining_loan
         equity := current_equity
         rental_revenue := total_rental_revenue
         interest_rate := current_interest_rate
         property_growth := current_property_growth
         interest_paid := interest_paid
         principal_paid := principal_paid
         fixed_costs := current_fixed_costs
         net_cash_flow := net_cash_flow }] }

/-- The state after the first n iterations of the simulation loop
(iteration k runs with year index k, for k = 1..n). -/
def simLoop (p : Params) (tourist_rental_days : ℚ) : ℕ → SimState
  | 0 => initState p
  | n + 1 => simStep p tourist_rental_days (simLoop p tourist_rental_days n) (n + 1)

/-- The state at the end of the simulation loop of run_simulation. -/
def simFinal (p : Params) (tourist_rental_days : ℚ) : SimState :=
  simLoop p tourist_rental_days p.simulation_years

/-- The terminal-value-adjusted cash-flow stream of run_simulation:
selling costs and remaining balance are netted against the final
property value and the result is added to the last stream entry. -/
def finalCashFlows (p : Params) (tourist_rental_days : ℚ) : List ℚ :=
  let st := simFinal p tourist_rental_days
  let selling_costs := st.current_property_value * p.selling_costs_pct
  let final_cash_inflow := (st.current_property_value - selling_costs) -
    st.remaining_loan
  addToLast final_cash_inflow st.cash_flows

/-- run_simulation from marseille_dashboard.py. The external IRR solver
npf.irr is passed as the fallible function irr; the try/except around it
turns a failure into the sentinel -1. Returns the annualized return and
the yearly results table. -/
def run_simulation (irr : List ℚ → Except Unit ℚ) (p : Params)
    (tourist_rental_days : ℚ) : ℚ × List YearRecord :=
  let annualized_return :=
    match irr (finalCashFlows p tourist_rental_days) with
    | Except.ok r => r
    | Except.error _ => -1
  (annualized_return, (simFinal p tourist_rental_days).simulation_data)

/-- The qualification test of the breakeven scan:
the computed return reaches the target. -/
def breakevenQualifies (irr : List ℚ → Except Unit ℚ) (p : Params)
    (days : ℕ) : Bool :=
  p.target_annual_return ≤ (run_simulation irr p (days : ℚ)).1

/-- find_breakeven_days from marseille_dashboard.py: scan days = 0..365,
return the first value whose computed return reaches the target, and -1
if none does. -/
def find_breakeven_days (irr : List ℚ → Except Unit ℚ) (p : Params) : Int :=
  match (List.range 366).find? (breakevenQualifies irr p) with
  | some days => (days : Int)
  | none => -1

/-! ## Proof infrastructure: components of one loop iteration -/

/-- The total rental revenue computed in each loop iteration. -/
def stepRevenue (p : Params) (tourist_rental_days : ℚ) : ℚ :=
  tourist_rental_days * p.tourist_rental_price_per_day +
    p.friends_rental_days_per_year * p.friends_rental_price_per_day +
    p.family_rental_days_per_year * p.family_rental_price_per_day

/-- The principal paid in one loop iteration from a given state. -/
def stepPrincipal (p : Params) (st : SimState) : ℚ :=
  if annual_principal_payment p < st.remaining_loan then
    annual_principal_payment p
  else st.remaining_loan

/-- The net cash flow appended to the stream in one loop iteration. -/
def stepNet (p : Params) (tourist_rental_days : ℚ) (st : SimState) (y : ℕ) : ℚ :=
  stepRevenue p tourist_rental_days -
    st.remaining_loan * p.base_mortgage_interest_rate -
    stepPrincipal p st -
    p.annual_fixed_costs * (1 + p.annual_costs_inflation) ^ y

/-- The year record emitted by one loop iteration from a given state. -/
def stepRecord (p : Params) (tourist_rental_days : ℚ) (st : SimState) (y : ℕ) :
    YearRecord :=
  { year := y
    property_value := st.current_property_value * (1 + p.avg_property_value_growth)
    loan_balance := st.remaining_loan - stepPrincipal p st
    equity := st.current_property_value * (1 + p.avg_property_value_growth) -
      (st.remaining_loan - stepPrincipal p st)
    rental_revenue := stepRevenue p tourist_rental_days
    interest_rate := p.base_mortgage_interest_rate
    property_growth := p.avg_property_value_growth
    interest_paid := st.remaining_loan * p.base_mortgage_interest_rate
    principal_paid := stepPrincipal p st
    fixed_costs := p.annual_fixed_costs * (1 + p.annual_costs_inflation) ^ y
    net_cash_flow := stepNet p tourist_rental_days st y }

/-- Modelled from the spec: the net present value of a cash-flow stream,
written through the substitution x = 1 / (1 + r). npvX evaluates the
stream as a polynomial in x by the Horner scheme, so the net present
value of the stream at discount rate r is npvX cfs (1 / (1 + r)). The IRR
routine itself (numpy_financial.irr) is external library code, absent
from this repository. -/
def npvX : List ℚ → ℝ → ℝ
  | [], _ => 0
  | c :: cs, x => (c : ℝ) + x * npvX cs x

/-- Modelled from the spec: the contract of the external IRR routine
(numpy_financial.irr), absent from this repository: an internal rate of
return of a stream is a discount rate above -1 at which the net present
value of the stream is zero. -/
def IsIRR (cfs : List ℚ) (r : ℝ) : Prop :=
  -1 < r ∧ npvX cfs (1 / (1 + r)) = 0

/-- A small concrete parameter set used to witness the claim theorems. -/
def tinyParams : Params :=
  { simulation_years := 1, apartment_price := 100, loan_amount := 50,
    mortgage_term_years := 1, buying_costs_pct := 0, selling_costs_pct := 1/10,
    annual_fixed_costs := 2, tourist_rental_price_per_day := 1,
    friends_rental_price_per_day := 0, friends_rental_days_per_year := 0,
    family_rental_price_per_day := 0, family_rental_days_per_year := 0,
    avg_property_value_growth := 0, annual_costs_inflation := 0,
    base_mortgage_interest_rate := 0, target_annual_return := 0 }

/-- A concrete parameter set with a linear cash-flow stream, used to
witness the monotonicity theorem. -/
def monoParams : Params :=
  { simulation_years := 1, apartment_price := 100, loan_amount := 0,
    mortgage_term_years := 1, buying_costs_pct := 0, selling_costs_pct := 0,
    annual_fixed_costs := 0, tourist_rental_price_per_day := 1,
    friends_rental_price_per_day := 0, friends_rental_days_per_year := 0,
    family_rental_price_per_day := 0, family_rental_days_per_year := 0,
    avg_property_value_growth := 0, annual_costs_inflation := 0,
    base_mortgage_interest_rate := 0, target_annual_return := 0 }

theorem simStep_eq (p : Params) (d : ℚ) (st : SimState) (y : ℕ) :
    simStep p d st y =
      { remaining_loan := st.remaining_loan - stepPrincipal p st
        current_property_value :=
          st.current_property_value * (1 + p.avg_property_value_growth)
        cash_flows := st.cash_flows ++ [stepNet p d st y]
        simulation_data := st.simulation_data ++ [stepRecord p d st y] } := rfl

theorem simLoop_succ (p : Params) (d : ℚ) (n : ℕ) :
    simLoop p d (n + 1) = simStep p d (simLoop p d n) (n + 1) := rfl

theorem finalCashFlows_eq (p : Params) (d : ℚ) :
    finalCashFlows p d = addToLast
      (((simFinal p d).current_property_value -
        (simFinal p d).current_property_value * p.selling_costs_pct) -
        (simFinal p d).remaining_loan)
      (simFinal p d).cash_flows := rfl

theorem run_simulation_snd (irr : List ℚ → Except Unit ℚ) (p : Params) (d : ℚ) :
    (run_simulation irr p d).2 = (simFinal p d).simulation_data := rfl

/-! ## Lemmas about addToLast -/

theorem addToLast_cons_cons (x a : ℚ) (l : List ℚ) (h : l ≠ []) :
    addToLast x (a :: l) = a :: addToLast x l := by
  cases l with
  | nil => exact absurd rfl h
  | cons b t => rfl

theorem addToLast_concat (x a : ℚ) :
    ∀ l : List ℚ, addToLast x (l ++ [a]) = l ++ [a + x]
  | [] => rfl
  | b :: t => by
    rw [List.cons_append, addToLast_cons_cons x b (t ++ [a]) (by simp),
      addToLast_concat x a t, List.cons_append]

theorem addToLast_length (x : ℚ) :
    ∀ l : List ℚ, (addToLast x l).length = l.length
  | [] => rfl
  | [_] => rfl
  | a :: b :: t => by
    rw [addToLast_cons_cons x a (b :: t) (by simp)]
    simp [addToLast_length x (b :: t)]

/-! ## Shape of the loop state -/

theorem simLoop_cash_flows_shape (p : Params) (d : ℚ) (n : ℕ) :
    ∃ t : List ℚ, (simLoop p d n).cash_flows =
      -total_initial_investment p :: t ∧ t.length = n := by
  induction n with
  | zero => exact ⟨[], rfl, rfl⟩
  | succ n ih =>
    obtain ⟨t, ht, hl⟩ := ih
    refine ⟨t ++ [stepNet p d (simLoop p d n) (n + 1)], ?_, ?_⟩
    · rw [simLoop_succ, simStep_eq]
      simp [ht]
    · simp [hl]

theorem mem_simLoop_data (p : Params) (d : ℚ) :
    ∀ n : ℕ, ∀ rec ∈ (simLoop p d n).simulation_data,
      ∃ k : ℕ, k < n ∧ rec = stepRecord p d (simLoop p d k) (k + 1)
  | 0, rec, h => absurd h (by simp [simLoop, initState])
  | n + 1, rec, h => by
    rw [simLoop_succ, simStep_eq] at h
    rcases List.mem_append.mp h with h | h
    · obtain ⟨k, hk, hr⟩ := mem_simLoop_data p d n rec h
      exact ⟨k, Nat.lt_succ_of_lt hk, hr⟩
    · exact ⟨n, Nat.lt_succ_self n, by simpa using h⟩

theorem simLoop_data_map_year (p : Params) (d : ℚ) (n : ℕ) :
    (simLoop p d n).simulation_data.map YearRecord.year = List.range' 1 n := by
  induction n with
  | zero => rfl
  | succ n ih =>
    rw [simLoop_succ, simStep_eq]
    have h : List.range' 1 (n + 1) = List.range' 1 n ++ [1 + 1 * n] :=
      List.range'_concat 1 n
    simp only [List.map_append, ih, h, List.map_cons, List.map_nil]
    simp [stepRecord, Nat.add_comm]

/-! ## Claim theorems: output shape, initial entry, terminal adjustment -/

/-- C8: for every parameter set and occupancy, run_simulation produces a
cash-flow stream of exactly simulation_years + 1 entries and a year-record
table of exactly simulation_years rows whose year indices are
1, 2, ..., simulation_years in strictly increasing order. -/
theorem run_simulation_output_shape (irr : List ℚ → Except Unit ℚ)
    (p : Params) (d : ℚ) :
    (finalCashFlows p d).length = p.simulation_years + 1 ∧
    (run_simulation irr p d).2.length = p.simulation_years ∧
    (run_simulation irr p d).2.map YearRecord.year =
      List.range' 1 p.simulation_years := by
  obtain ⟨t, ht, hl⟩ := simLoop_cash_flows_shape p d p.simulation_years
  have hyear : (run_simulation irr p d).2.map YearRecord.year =
      List.range' 1 p.simulation_years := by
    rw [run_simulation_snd]
    exact simLoop_data_map_year p d p.simulation_years
  refine ⟨?_, ?_, hyear⟩
  · rw [finalCashFlows_eq, addToLast_length]
    show (simLoop p d p.simulation_years).cash_flows.length = _
    rw [ht]
    simp [hl]
  · have := congrArg List.length hyear
    simpa using this

/-- C7: for every parameter set with at least one simulated year and every
occupancy, the first entry of the cash-flow stream equals the negation of
(apartment_price - loan_amount) + apartment_price * buying_costs_pct. -/
theorem finalCashFlows_head (p : Params) (d : ℚ)
    (hN : 1 ≤ p.simulation_years) :
    (finalCashFlows p d).head? =
      some (-((p.apartment_price - p.loan_amount) +
        p.apartment_price * p.buying_costs_pct)) := by
  obtain ⟨t, ht, hl⟩ := simLoop_cash_flows_shape p d p.simulation_years
  have htne : t ≠ [] := by
    intro h
    rw [h] at hl
    simp at hl
    omega
  rw [finalCashFlows_eq]
  show (addToLast _ (simLoop p d p.simulation_years).cash_flows).head? = _
  rw [ht, addToLast_cons_cons _ _ _ htne]
  rfl

/-- C7 witness at concrete parameters. -/
theorem finalCashFlows_head_witness :
    (finalCashFlows
      { simulation_years := 2, apartment_price := 600000, loan_amount := 300000,
        mortgage_term_years := 25, buying_costs_pct := 7/100,
        selling_costs_pct := 5/100, annual_fixed_costs := 6000,
        tourist_rental_price_per_day := 300, friends_rental_price_per_day := 80,
        friends_rental_days_per_year := 15, family_rental_price_per_day := 50,
        family_rental_days_per_year := 10, avg_property_value_growth := 2/100,
        annual_costs_inflation := 15/1000, base_mortgage_interest_rate := 35/1000,
        target_annual_return := 5/100 } 90).head? =
      some (-((600000 - 300000) + 600000 * (7/100))) :=
  finalCashFlows_head _ 90 (by decide)

/-- C4: the last entry of the cash-flow stream equals the final year
record's net cash flow plus (final property value, minus final property
value times selling_costs_pct, minus remaining loan balance); and the net
cash flow stored in the final year record is not changed by the terminal
adjustment: it still equals revenue minus interest minus principal minus
fixed costs for that year. -/
theorem terminal_adjustment (irr : List ℚ → Except Unit ℚ) (p : Params)
    (d : ℚ) (hN : 1 ≤ p.simulation_years) :
    ∀ rec : YearRecord, ((run_simulation irr p d).2).getLast? = some rec →
      (finalCashFlows p d).getLast? =
        some (rec.net_cash_flow + (rec.property_value -
          rec.property_value * p.selling_costs_pct - rec.loan_balance)) ∧
      rec.net_cash_flow =
        rec.rental_revenue - rec.interest_paid - rec.principal_paid -
          rec.fixed_costs := by
  intro rec hrec
  obtain ⟨m, hm⟩ : ∃ m, p.simulation_years = m + 1 :=
    ⟨p.simulation_years - 1, by omega⟩
  have hfin : simFinal p d = simStep p d (simLoop p d m) (m + 1) := by
    rw [simFinal, hm, simLoop_succ]
  rw [run_simulation_snd, hfin, simStep_eq, List.getLast?_concat] at hrec
  have hrec' : rec = stepRecord p d (simLoop p d m) (m + 1) :=
    (Option.some.inj hrec).symm
  subst hrec'
  constructor
  · rw [finalCashFlows_eq, hfin, simStep_eq]
    show (addToLast _ ((simLoop p d m).cash_flows ++
      [stepNet p d (simLoop p d m) (m + 1)])).getLast? = _
    rw [addToLast_concat, List.getLast?_concat]
    rfl
  · rfl

/-- C4 witness at concrete parameters: the single year record of a
one-year run of tinyParams. -/
theorem terminal_adjustment_witness :
    (finalCashFlows tinyParams 3).getLast? =
      some ((stepRecord tinyParams 3 (initState tinyParams) 1).net_cash_flow +
        ((stepRecord tinyParams 3 (initState tinyParams) 1).property_value -
          (stepRecord tinyParams 3 (initState tinyParams) 1).property_value *
            tinyParams.selling_costs_pct -
          (stepRecord tinyParams 3 (initState tinyParams) 1).loan_balance)) ∧
    (stepRecord tinyParams 3 (initState tinyParams) 1).net_cash_flow =
      (stepRecord tinyParams 3 (initState tinyParams) 1).rental_revenue -
      (stepRecord tinyParams 3 (initState tinyParams) 1).interest_paid -
      (stepRecord tinyParams 3 (initState tinyParams) 1).principal_paid -
      (stepRecord tinyParams 3 (initState tinyParams) 1).fixed_costs :=
  terminal_adjustment (fun _ => Except.error ()) tinyParams 3 (by decide)
    (stepRecord tinyParams 3 (initState tinyParams) 1) rfl

/-- C6: in every year record, the fixed costs equal the base
annual_fixed_costs times (1 + annual_costs_inflation) to the power of that
record's year index (re-derived from the base, not chained), and the net
cash flow of the record is computed from exactly those fixed costs. -/
theorem fixed_costs_rederived (irr : List ℚ → Except Unit ℚ) (p : Params)
    (d : ℚ) :
    ∀ rec ∈ (run_simulation irr p d).2,
      rec.fixed_costs =
        p.annual_fixed_costs * (1 + p.annual_costs_inflation) ^ rec.year ∧
      rec.net_cash_flow =
        rec.rental_revenue - rec.interest_paid - rec.principal_paid -
          rec.fixed_costs := by
  intro rec h
  rw [run_simulation_snd] at h
  obtain ⟨k, hk, rfl⟩ := mem_simLoop_data p d p.simulation_years rec h
  exact ⟨rfl, rfl⟩

/-- C10: the total rental revenue recorded in every year record of a
single run is the same fixed value, recomputed from the constant day
counts and per-day prices. -/
theorem rental_revenue_constant (irr : List ℚ → Except Unit ℚ) (p : Params)
    (d : ℚ) :
    ∀ rec ∈ (run_simulation irr p d).2,
      rec.rental_revenue =
        d * p.tourist_rental_price_per_day +
        p.friends_rental_days_per_year * p.friends_rental_price_per_day +
        p.family_rental_days_per_year * p.family_rental_price_per_day := by
  intro rec h
  rw [run_simulation_snd] at h
  obtain ⟨k, hk, rfl⟩ := mem_simLoop_data p d p.simulation_years rec h
  rfl

/-- C6 witness at concrete parameters: the single year record of a
one-year run of tinyParams. -/
theorem fixed_costs_rederived_witness :
    (stepRecord tinyParams 3 (initState tinyParams) 1).fixed_costs =
      tinyParams.annual_fixed_costs *
        (1 + tinyParams.annual_costs_inflation) ^
          (stepRecord tinyParams 3 (initState tinyParams) 1).year ∧
    (stepRecord tinyParams 3 (initState tinyParams) 1).net_cash_flow =
      (stepRecord tinyParams 3 (initState tinyParams) 1).rental_revenue -
      (stepRecord tinyParams 3 (initState tinyParams) 1).interest_paid -
      (stepRecord tinyParams 3 (initState tinyParams) 1).principal_paid -
      (stepRecord tinyParams 3 (initState tinyParams) 1).fixed_costs :=
  fixed_costs_rederived (fun _ => Except.error ()) tinyParams 3
    (stepRecord tinyParams 3 (initState tinyParams) 1)
    (List.mem_singleton.mpr rfl)

/-- C10 witness at concrete parameters. -/
theorem rental_revenue_constant_witness :
    (stepRecord tinyParams 3 (initState tinyParams) 1).rental_revenue =
      3 * tinyParams.tourist_rental_price_per_day +
      tinyParams.friends_rental_days_per_year *
        tinyParams.friends_rental_price_per_day +
      tinyParams.family_rental_days_per_year *
        tinyParams.family_rental_price_per_day :=
  rental_revenue_constant (fun _ => Except.error ()) tinyParams 3
    (stepRecord tinyParams 3 (initState tinyParams) 1)
    (List.mem_singleton.mpr rfl)

/-! ## Purity of the simulation -/

/-- C9: run_simulation is a pure function of the parameter record's field
values and the occupancy: it never mutates the record, and two calls that
agree on every parameter field and on the occupancy return identical
results (same annualized return and same year table). -/
theorem run_simulation_deterministic (irr : List ℚ → Except Unit ℚ)
    (p q : Params) (d e : ℚ)
    (h1 : p.simulation_years = q.simulation_years)
    (h2 : p.apartment_price = q.apartment_price)
    (h3 : p.loan_amount = q.loan_amount)
    (h4 : p.mortgage_term_years = q.mortgage_term_years)
    (h5 : p.buying_costs_pct = q.buying_costs_pct)
    (h6 : p.selling_costs_pct = q.selling_costs_pct)
    (h7 : p.annual_fixed_costs = q.annual_fixed_costs)
    (h8 : p.tourist_rental_price_per_day = q.tourist_rental_price_per_day)
    (h9 : p.friends_rental_price_per_day = q.friends_rental_price_per_day)
    (h10 : p.friends_rental_days_per_year = q.friends_rental_days_per_year)
    (h11 : p.family_rental_price_per_day = q.family_rental_price_per_day)
    (h12 : p.family_rental_days_per_year = q.family_rental_days_per_year)
    (h13 : p.avg_property_value_growth = q.avg_property_value_growth)
    (h14 : p.annual_costs_inflation = q.annual_costs_inflation)
    (h15 : p.base_mortgage_interest_rate = q.base_mortgage_interest_rate)
    (h16 : p.target_annual_return = q.target_annual_return)
    (hd : d = e) :
    run_simulation irr p d = run_simulation irr q e := by
  have hpq : p = q := by
    ext <;> assumption
  rw [hpq, hd]

/-- C9 witness at concrete parameters. -/
theorem run_simulation_deterministic_witness :
    run_simulation (fun _ => Except.error ()) tinyParams 3 =
      run_simulation (fun _ => Except.error ()) tinyParams 3 :=
  run_simulation_deterministic (fun _ => Except.error ()) tinyParams tinyParams
    3 3 rfl rfl rfl rfl rfl rfl rfl rfl rfl rfl rfl rfl rfl rfl rfl rfl rfl

/-! ## The loan balance -/

theorem simLoop_remaining_loan_closed (p : Params) (d : ℚ)
    (hL : 0 ≤ p.loan_amount) (hm : 1 ≤ p.mortgage_term_years) (n : ℕ) :
    (simLoop p d n).remaining_loan =
      if n ≤ p.mortgage_term_years then
        p.loan_amount - n * annual_principal_payment p
      else 0 := by
  have hm0 : ((p.mortgage_term_years : ℚ)) ≠ 0 := Nat.cast_ne_zero.mpr (by omega)
  have hLA : p.loan_amount =
      (p.mortgage_term_years : ℚ) * annual_principal_payment p := by
    rw [annual_principal_payment]
    field_simp
  have hA : 0 ≤ annual_principal_payment p := by
    rw [annual_principal_payment]
    positivity
  induction n with
  | zero => simp [simLoop, initState, Nat.zero_le, hm]
  | succ n ih =>
    rw [simLoop_succ, simStep_eq]
    show (simLoop p d n).remaining_loan - stepPrincipal p (simLoop p d n) = _
    rw [stepPrincipal, ih]
    by_cases hn1 : n + 1 ≤ p.mortgage_term_years
    · have hn : n ≤ p.mortgage_term_years := Nat.le_of_succ_le hn1
      rw [if_pos hn, if_pos hn1]
      have hcast : (n : ℚ) + 1 ≤ (p.mortgage_term_years : ℚ) := by
        exact_mod_cast hn1
      by_cases hlt : annual_principal_payment p <
          p.loan_amount - (n : ℚ) * annual_principal_payment p
      · rw [if_pos hlt]
        push_cast
        ring
      · rw [if_neg hlt]
        push_cast
        have hge : annual_principal_payment p ≤
            p.loan_amount - (n : ℚ) * annual_principal_payment p := by
          rw [hLA]
          nlinarith [mul_nonneg (sub_nonneg.mpr hcast) hA]
        have heq : p.loan_amount - (n : ℚ) * annual_principal_payment p =
            annual_principal_payment p := le_antisymm (not_lt.mp hlt) hge
        linarith
    · rw [if_neg hn1]
      have hbal : (if n ≤ p.mortgage_term_years then
          p.loan_amount - (n : ℚ) * annual_principal_payment p else 0) = 0 := by
        by_cases hn : n ≤ p.mortgage_term_years
        · have hnm : n = p.mortgage_term_years := by omega
          rw [if_pos hn, hnm, hLA]
          ring
        · rw [if_neg hn]
      rw [hbal]
      rw [if_neg (by simpa using hA)]
      ring

/-- C5: with a non-negative loan and a mortgage term of at least one
year, every year record carries a non-negative remaining loan balance;
every record from year mortgage_term_years on carries balance exactly 0;
and when the horizon reaches the mortgage term, the simulation really does
produce a record of year mortgage_term_years with balance 0. -/
theorem loan_balance_invariant (irr : List ℚ → Except Unit ℚ) (p : Params)
    (d : ℚ) (hL : 0 ≤ p.loan_amount) (hm : 1 ≤ p.mortgage_term_years) :
    (∀ rec ∈ (run_simulation irr p d).2, 0 ≤ rec.loan_balance) ∧
    (∀ rec ∈ (run_simulation irr p d).2,
      p.mortgage_term_years ≤ rec.year → rec.loan_balance = 0) ∧
    (p.mortgage_term_years ≤ p.simulation_years →
      ∃ rec ∈ (run_simulation irr p d).2,
        rec.year = p.mortgage_term_years ∧ rec.loan_balance = 0) := by
  have hm0 : ((p.mortgage_term_years : ℚ)) ≠ 0 := Nat.cast_ne_zero.mpr (by omega)
  have hLA : p.loan_amount =
      (p.mortgage_term_years : ℚ) * annual_principal_payment p := by
    rw [annual_principal_payment]
    field_simp
  have hA : 0 ≤ annual_principal_payment p := by
    rw [annual_principal_payment]
    positivity
  have hbal : ∀ rec ∈ (run_simulation irr p d).2,
      rec.loan_balance = (if rec.year ≤ p.mortgage_term_years then
        p.loan_amount - rec.year * annual_principal_payment p else 0) := by
    intro rec h
    rw [run_simulation_snd] at h
    obtain ⟨k, hk, rfl⟩ := mem_simLoop_data p d p.simulation_years rec h
    have hyear : (stepRecord p d (simLoop p d k) (k + 1)).year = k + 1 := rfl
    have hlb : (stepRecord p d (simLoop p d k) (k + 1)).loan_balance =
        (simLoop p d (k + 1)).remaining_loan := rfl
    rw [hlb, hyear, simLoop_remaining_loan_closed p d hL hm (k + 1)]
  refine ⟨?_, ?_, ?_⟩
  · intro rec h
    rw [hbal rec h]
    by_cases hy : rec.year ≤ p.mortgage_term_years
    · rw [if_pos hy, hLA]
      have hcast : (rec.year : ℚ) ≤ (p.mortgage_term_years : ℚ) := by
        exact_mod_cast hy
      nlinarith [mul_nonneg (sub_nonneg.mpr hcast) hA]
    · rw [if_neg hy]
  · intro rec h hy
    rw [hbal rec h]
    by_cases hy' : rec.year ≤ p.mortgage_term_years
    · have hym : rec.year = p.mortgage_term_years := le_antisymm hy' hy
      rw [if_pos hy', hym, hLA]
      ring
    · rw [if_neg hy']
  · intro hNm
    have hmap := simLoop_data_map_year p d p.simulation_years
    have hmem : p.mortgage_term_years ∈
        (simLoop p d p.simulation_years).simulation_data.map YearRecord.year := by
      rw [hmap]
      have : 1 ≤ p.mortgage_term_years ∧
          p.mortgage_term_years < 1 + p.simulation_years := ⟨hm, by omega⟩
      simpa [List.mem_range'_1] using this
    obtain ⟨rec, hrec, hyear⟩ := List.mem_map.mp hmem
    have hrec' : rec ∈ (run_simulation irr p d).2 := by
      rw [run_simulation_snd]
      exact hrec
    refine ⟨rec, hrec', hyear, ?_⟩
    rw [hbal rec hrec', hyear, if_pos le_rfl, hLA]
    ring

/-- C5 witness at concrete parameters. -/
theorem loan_balance_invariant_witness :
    (∀ rec ∈ (run_simulation (fun _ => Except.error ()) tinyParams 3).2,
      0 ≤ rec.loan_balance) ∧
    (∀ rec ∈ (run_simulation (fun _ => Except.error ()) tinyParams 3).2,
      tinyParams.mortgage_term_years ≤ rec.year → rec.loan_balance = 0) ∧
    (tinyParams.mortgage_term_years ≤ tinyParams.simulation_years →
      ∃ rec ∈ (run_simulation (fun _ => Except.error ()) tinyParams 3).2,
        rec.year = tinyParams.mortgage_term_years ∧ rec.loan_balance = 0) :=
  loan_balance_invariant (fun _ => Except.error ()) tinyParams 3
    (by decide) (by decide)

/-! ## The breakeven scan -/

theorem find?_range_spec (P : ℕ → Bool) (n : ℕ) :
    (∃ d : ℕ, d < n ∧ P d = true ∧ (List.range n).find? P = some d ∧
      ∀ e : ℕ, e < d → P e = false) ∨
    ((∀ d : ℕ, d < n → P d = false) ∧ (List.range n).find? P = none) := by
  induction n with
  | zero =>
    right
    exact ⟨fun d h => absurd h (Nat.not_lt_zero d), rfl⟩
  | succ n ih =>
    rcases ih with ⟨d, hd, hP, hfind, hmin⟩ | ⟨hall, hnone⟩
    · left
      refine ⟨d, Nat.lt_succ_of_lt hd, hP, ?_, hmin⟩
      rw [List.range_succ, List.find?_append, hfind]
      rfl
    · by_cases hPn : P n = true
      · left
        refine ⟨n, Nat.lt_succ_self n, hPn, ?_, fun e he => hall e he⟩
        rw [List.range_succ, List.find?_append, hnone]
        simp [List.find?, hPn]
      · right
        refine ⟨?_, ?_⟩
        · intro d hd
          rcases Nat.lt_succ_iff_lt_or_eq.mp hd with h | h
          · exact hall d h
          · subst h
            simpa using hPn
        · rw [List.range_succ, List.find?_append, hnone]
          simp [List.find?, hPn]

/-- C1: find_breakeven_days returns the smallest days in [0, 365] whose
computed annualized return reaches target_annual_return; when no days in
[0, 365] qualifies it returns the sentinel -1; and it never returns a
qualifying value when a smaller day count also qualifies. -/
theorem find_breakeven_days_correct (irr : List ℚ → Except Unit ℚ)
    (p : Params) :
    (∃ d : ℕ, d ≤ 365 ∧
      p.target_annual_return ≤ (run_simulation irr p (d : ℚ)).1 ∧
      find_breakeven_days irr p = (d : Int) ∧
      ∀ e : ℕ, e < d →
        ¬ p.target_annual_return ≤ (run_simulation irr p (e : ℚ)).1) ∨
    ((∀ d : ℕ, d ≤ 365 →
        ¬ p.target_annual_return ≤ (run_simulation irr p (d : ℚ)).1) ∧
      find_breakeven_days irr p = -1) := by
  rcases find?_range_spec (breakevenQualifies irr p) 366 with
    ⟨d, hd, hP, hfind, hmin⟩ | ⟨hall, hnone⟩
  · left
    refine ⟨d, by omega, ?_, ?_, ?_⟩
    · simpa [breakevenQualifies] using hP
    · rw [find_breakeven_days, hfind]
    · intro e he
      have := hmin e he
      simpa [breakevenQualifies] using this
  · right
    refine ⟨?_, ?_⟩
    · intro d hd
      have := hall d (by omega)
      simpa [breakevenQualifies] using this
    · rw [find_breakeven_days, hnone]

/-- C3: a failing IRR computation is absorbed: run_simulation returns the
sentinel -1 rather than propagating the failure, and inside the breakeven
scan a failing trial does not qualify (the sentinel is below any target
above -1), so the scan cannot return that day and simply continues. -/
theorem irr_failure_sentinel (irr : List ℚ → Except Unit ℚ) (p : Params)
    (d : ℕ) (hd : d ≤ 365)
    (herr : irr (finalCashFlows p (d : ℚ)) = Except.error ()) :
    (run_simulation irr p (d : ℚ)).1 = -1 ∧
    (-1 < p.target_annual_return →
      breakevenQualifies irr p d = false ∧
      find_breakeven_days irr p ≠ (d : Int)) := by
  have h1 : (run_simulation irr p (d : ℚ)).1 = -1 := by
    simp only [run_simulation, herr]
  refine ⟨h1, fun ht => ?_⟩
  have hq : breakevenQualifies irr p d = false := by
    simp only [breakevenQualifies, h1, decide_eq_false_iff_not]
    intro hcon
    linarith
  refine ⟨hq, ?_⟩
  intro hcontra
  rcases find?_range_spec (breakevenQualifies irr p) 366 with
    ⟨e, he, hP, hfind, _⟩ | ⟨_, hnone⟩
  · rw [find_breakeven_days, hfind] at hcontra
    have hed : e = d := by
      have h' : ((e : Int)) = ((d : Int)) := hcontra
      exact_mod_cast h'
    subst hed
    rw [hP] at hq
    cases hq
  · rw [find_breakeven_days, hnone] at hcontra
    have h' : ((-1 : Int)) = ((d : Int)) := hcontra
    omega

/-- C3 witness at concrete parameters: a solver that always fails. -/
theorem irr_failure_sentinel_witness :
    (run_simulation (fun _ => Except.error ()) tinyParams 5).1 = -1 ∧
    (-1 < tinyParams.target_annual_return →
      breakevenQualifies (fun _ => Except.error ()) tinyParams 5 = false ∧
      find_breakeven_days (fun _ => Except.error ()) tinyParams ≠ (5 : Int)) :=
  irr_failure_sentinel (fun _ => Except.error ()) tinyParams 5 (by omega) rfl

/-! ## Net present value: basic lemmas -/

theorem simFinal_def (p : Params) (d : ℚ) :
    simFinal p d = simLoop p d p.simulation_years := rfl

theorem run_simulation_fst (irr : List ℚ → Except Unit ℚ) (p : Params)
    (d : ℚ) :
    (run_simulation irr p d).1 =
      match irr (finalCashFlows p d) with
      | Except.ok r => r
      | Except.error _ => -1 := rfl

theorem npvX_continuous (l : List ℚ) : Continuous (npvX l) := by
  induction l with
  | nil => simpa [npvX] using continuous_const
  | cons c cs ih =>
    show Continuous fun x => (c : ℝ) + x * npvX cs x
    exact continuous_const.add (continuous_id.mul ih)

theorem npvX_mono {l1 l2 : List ℚ} (h : List.Forall₂ (· ≤ ·) l1 l2) {x : ℝ}
    (hx : 0 ≤ x) : npvX l1 x ≤ npvX l2 x := by
  induction h with
  | nil => exact le_rfl
  | cons hab _ ih =>
    show (_ : ℝ) + x * npvX _ x ≤ (_ : ℝ) + x * npvX _ x
    exact add_le_add (by exact_mod_cast hab) (mul_le_mul_of_nonneg_left ih hx)

/-! ## The cash-flow stream is pointwise monotone in the occupancy -/

theorem simLoop_state_indep (p : Params) (d1 d2 : ℚ) (n : ℕ) :
    (simLoop p d2 n).remaining_loan = (simLoop p d1 n).remaining_loan ∧
    (simLoop p d2 n).current_property_value =
      (simLoop p d1 n).current_property_value := by
  induction n with
  | zero => exact ⟨rfl, rfl⟩
  | succ n ih =>
    constructor
    · show (simLoop p d2 n).remaining_loan - stepPrincipal p (simLoop p d2 n) =
        (simLoop p d1 n).remaining_loan - stepPrincipal p (simLoop p d1 n)
      simp only [stepPrincipal]
      rw [ih.1]
    · show (simLoop p d2 n).current_property_value *
          (1 + p.avg_property_value_growth) =
        (simLoop p d1 n).current_property_value *
          (1 + p.avg_property_value_growth)
      rw [ih.2]

theorem simLoop_cash_flows_le (p : Params) {d1 d2 : ℚ}
    (hpt : 0 ≤ p.tourist_rental_price_per_day) (hd : d1 ≤ d2) (n : ℕ) :
    List.Forall₂ (· ≤ ·) (simLoop p d1 n).cash_flows
      (simLoop p d2 n).cash_flows := by
  induction n with
  | zero => exact List.Forall₂.cons le_rfl List.Forall₂.nil
  | succ n ih =>
    have hflow : stepNet p d1 (simLoop p d1 n) (n + 1) ≤
        stepNet p d2 (simLoop p d2 n) (n + 1) := by
      have hloan := (simLoop_state_indep p d1 d2 n).1
      have hrev : d1 * p.tourist_rental_price_per_day ≤
          d2 * p.tourist_rental_price_per_day :=
        mul_le_mul_of_nonneg_right hd hpt
      simp only [stepNet, stepRevenue, stepPrincipal]
      rw [hloan]
      linarith
    show List.Forall₂ (· ≤ ·)
      ((simLoop p d1 n).cash_flows ++ [stepNet p d1 (simLoop p d1 n) (n + 1)])
      ((simLoop p d2 n).cash_flows ++ [stepNet p d2 (simLoop p d2 n) (n + 1)])
    exact List.rel_append ih (List.Forall₂.cons hflow List.Forall₂.nil)

theorem addToLast_forall₂_le (x : ℚ) {l1 l2 : List ℚ}
    (h : List.Forall₂ (· ≤ ·) l1 l2) :
    List.Forall₂ (· ≤ ·) (addToLast x l1) (addToLast x l2) := by
  induction h with
  | nil => exact List.Forall₂.nil
  | @cons a b t1 t2 hab htl ih =>
    cases htl with
    | nil => exact List.Forall₂.cons (add_le_add_right hab x) List.Forall₂.nil
    | @cons c e u1 u2 hce htl2 =>
      rw [addToLast_cons_cons x a (c :: u1) (by simp),
        addToLast_cons_cons x b (e :: u2) (by simp)]
      exact List.Forall₂.cons hab ih

theorem finalCashFlows_le (p : Params) {d1 d2 : ℚ}
    (hpt : 0 ≤ p.tourist_rental_price_per_day) (hd : d1 ≤ d2) :
    List.Forall₂ (· ≤ ·) (finalCashFlows p d1) (finalCashFlows p d2) := by
  rw [finalCashFlows_eq, finalCashFlows_eq, simFinal_def, simFinal_def,
    (simLoop_state_indep p d1 d2 p.simulation_years).1,
    (simLoop_state_indep p d1 d2 p.simulation_years).2]
  exact addToLast_forall₂_le _ (simLoop_cash_flows_le p hpt hd p.simulation_years)

theorem finalCashFlows_shape (p : Params) (d : ℚ)
    (hN : 1 ≤ p.simulation_years) :
    ∃ t : List ℚ, finalCashFlows p d = -total_initial_investment p :: t := by
  obtain ⟨t, ht, hl⟩ := simLoop_cash_flows_shape p d p.simulation_years
  have htne : t ≠ [] := by
    intro h
    rw [h] at hl
    simp at hl
    omega
  rw [finalCashFlows_eq, simFinal_def, ht, addToLast_cons_cons _ _ _ htne]
  exact ⟨_, rfl⟩

/-! ## Monotonicity of the annualized return -/

/-- C2: deterministic monotonicity of the computed annualized return in
the short-term occupancy: with the external solver modelled by its
contract (the returned rate is the discount rate at which the net present
value of the stream is zero), occupancies d1 <= d2 in [0, 365] give
returns r1 <= r2. The validity hypotheses are a positive horizon, a
non-negative tourist daily price, and a positive initial investment. -/
theorem annualized_return_monotone (irr : List ℚ → Except Unit ℚ)
    (p : Params) (d1 d2 r1 r2 : ℚ) (hN : 1 ≤ p.simulation_years)
    (hpt : 0 ≤ p.tourist_rental_price_per_day)
    (htii : 0 < total_initial_investment p)
    (hd0 : 0 ≤ d1) (hd : d1 ≤ d2) (hd365 : d2 ≤ 365)
    (e1 : (run_simulation irr p d1).1 = r1)
    (e2 : (run_simulation irr p d2).1 = r2)
    (h1 : IsIRR (finalCashFlows p d1) (r1 : ℝ))
    (h2 : IsIRR (finalCashFlows p d2) (r2 : ℝ))
    (huniq : ∀ r : ℝ, IsIRR (finalCashFlows p d2) r → r = (r2 : ℝ)) :
    r1 ≤ r2 := by
  obtain ⟨hr1, hz1⟩ := h1
  have hr1pos : (0 : ℝ) < 1 + (r1 : ℝ) := by linarith
  have hx1pos : 0 < 1 / (1 + (r1 : ℝ)) := by positivity
  have hle : npvX (finalCashFlows p d1) (1 / (1 + (r1 : ℝ))) ≤
      npvX (finalCashFlows p d2) (1 / (1 + (r1 : ℝ))) :=
    npvX_mono (finalCashFlows_le p hpt hd) (le_of_lt hx1pos)
  have hge : 0 ≤ npvX (finalCashFlows p d2) (1 / (1 + (r1 : ℝ))) := by
    rw [← hz1]
    exact hle
  rcases eq_or_lt_of_le hge with heq | hlt
  · have hup : IsIRR (finalCashFlows p d2) (r1 : ℝ) := ⟨hr1, heq.symm⟩
    have hcast := huniq _ hup
    have hqq : r1 = r2 := by exact_mod_cast hcast
    exact le_of_eq hqq
  · obtain ⟨t2, ht2⟩ := finalCashFlows_shape p d2 hN
    have hneg : npvX (finalCashFlows p d2) 0 < 0 := by
      rw [ht2]
      show ((-total_initial_investment p : ℚ) : ℝ) +
        0 * npvX t2 0 < 0
      have hpos : (0 : ℝ) < (total_initial_investment p : ℝ) := by
        exact_mod_cast htii
      push_cast
      linarith
    have hc : ContinuousOn (npvX (finalCashFlows p d2))
        (Set.Icc 0 (1 / (1 + (r1 : ℝ)))) :=
      (npvX_continuous _).continuousOn
    have h0mem : (0 : ℝ) ∈ Set.Ioo (npvX (finalCashFlows p d2) 0)
        (npvX (finalCashFlows p d2) (1 / (1 + (r1 : ℝ)))) := ⟨hneg, hlt⟩
    obtain ⟨x, ⟨hx0, hxlt⟩, hfx⟩ :=
      intermediate_value_Ioo (le_of_lt hx1pos) hc h0mem
    have hrs : IsIRR (finalCashFlows p d2) (1 / x - 1) := by
      constructor
      · have : 0 < 1 / x := by positivity
        linarith
      · have hinv : 1 + (1 / x - 1) = 1 / x := by ring
        rw [hinv, one_div_one_div]
        exact hfx
    have hrsr2 : 1 / x - 1 = (r2 : ℝ) := huniq _ hrs
    have hlt2 : 1 / (1 / (1 + (r1 : ℝ))) < 1 / x :=
      one_div_lt_one_div_of_lt hx0 hxlt
    rw [one_div_one_div] at hlt2
    have hcast : (r1 : ℝ) < (r2 : ℝ) := by
      rw [← hrsr2]
      linarith
    exact le_of_lt (by exact_mod_cast hcast)

/-- C2 witness: for monoParams the stream is linear, so both rates and
the uniqueness of the second rate can be checked by hand; occupancy 0
yields return 0 and occupancy 100 yields return 1. -/
theorem annualized_return_monotone_witness : (0 : ℚ) ≤ 1 := by
  have hfin0mono : simFinal monoParams (0 : ℚ) =
      simStep monoParams 0 (initState monoParams) 1 := rfl
  have hfin100mono : simFinal monoParams (100 : ℚ) =
      simStep monoParams 100 (initState monoParams) 1 := rfl
  have hcf0 : finalCashFlows monoParams 0 = [-100, 100] := by
    rw [finalCashFlows_eq, hfin0mono, simStep_eq]
    simp only [initState, monoParams, stepNet, stepRevenue, stepPrincipal,
      annual_principal_payment, total_initial_investment]
    norm_num [addToLast]
  have hcf100 : finalCashFlows monoParams 100 = [-100, 200] := by
    rw [finalCashFlows_eq, hfin100mono, simStep_eq]
    simp only [initState, monoParams, stepNet, stepRevenue, stepPrincipal,
      annual_principal_payment, total_initial_investment]
    norm_num [addToLast]
  refine annualized_return_monotone
    (fun cfs => if cfs = [-100, 200] then Except.ok 1 else Except.ok 0)
    monoParams 0 100 0 1 ?_ ?_ ?_ ?_ ?_ ?_ ?_ ?_ ?_ ?_ ?_
  · norm_num [monoParams]
  · norm_num [monoParams]
  · norm_num [total_initial_investment, monoParams]
  · exact le_rfl
  · norm_num
  · norm_num
  · rw [run_simulation_fst, hcf0]
    norm_num
  · rw [run_simulation_fst, hcf100]
    norm_num
  · rw [hcf0]
    constructor
    · norm_num
    · norm_num [npvX]
  · rw [hcf100]
    constructor
    · norm_num
    · norm_num [npvX]
  · rw [hcf100]
    rintro r ⟨hr, hz⟩
    simp only [npvX] at hz
    push_cast at hz ⊢
    have hpos : (0 : ℝ) < 1 + r := by linarith
    field_simp at hz
    linarith

end Marseille
